import Mathlib

/-!
Verification development for the dbt-incremental-ci repository.

Strings are modelled as lists of characters (`Str`).  Python `dict.get`
returning `None` is modelled with `Option`; Python exceptions are modelled
with `Except Str`.  Database interaction (`engine.connect()` /
`conn.execute(...)`) is abstracted into a `DBEnv` record so that error
propagation and dry-run independence can be stated.
-/

namespace DbtCI

/-- Strings, modelled as lists of characters. -/
abbrev Str := List Char

/-- Python `sep in s` style splitting: `s.split(sep)` for a one-character
separator.  Always returns a non-empty list of groups. -/
def splitOnChar (sep : Char) : Str → List Str
  | [] => [[]]
  | c :: t =>
    if c = sep then [] :: splitOnChar sep t
    else
      match splitOnChar sep t with
      | [] => [[c]]
      | g :: gs => (c :: g) :: gs

/-- `node_name.split('.')[-1]` from `filter_incremental_and_snapshots`:
the final dotted segment of a raw changed-node string. -/
def lastSegment (s : Str) : Str := (splitOnChar '.' s).getLastD []

/-- Python `needle in hay`: substring containment test. -/
def containsSub (n : Str) : Str → Bool
  | [] => n.isEmpty
  | c :: t => n.isPrefixOf (c :: t) || containsSub n t

/-- Python `s.endswith(suf)`: plain string-suffix test. -/
def endsWithB (s suf : Str) : Bool := suf.reverse.isPrefixOf s.reverse

/-- The `config` mapping of a manifest entry; only its `materialized` key is
consulted by the code.  `none` models an absent key. -/
structure NodeConfig where
  materialized : Option Str
deriving DecidableEq, Repr

/-- One manifest entry, from the union `{**nodes, **sources}` of the
production manifest.  Every field models `entry.get(...)`, so `none` is an
absent key (Python `None`). -/
structure ManifestNode where
  resource_type : Option Str
  config : Option NodeConfig
  database : Option Str
  schema : Option Str
  alias_ : Option Str
  name : Option Str
deriving DecidableEq, Repr

/-- The dict appended to `filtered_nodes` by `filter_incremental_and_snapshots`. -/
structure Candidate where
  unique_id : Str
  resource_type : Str
  materialization : Str
  database : Option Str
  schema : Option Str
  alias_ : Option Str
  name : Option Str
deriving DecidableEq, Repr, Inhabited

/-- The body of the inner loop of `filter_incremental_and_snapshots` for one
matching manifest entry `(node_key, node)`: the candidate emitted, if any.
Models `node.get('config', {})`, `config.get('materialized')` and
`node.get('alias', node.get('name'))` literally. -/
def candidateOf (kv : Str × ManifestNode) : Option Candidate :=
  let node := kv.2
  if node.resource_type = some "model".data then
    let config := node.config.getD ⟨none⟩
    if config.materialized = some "incremental".data then
      some { unique_id := kv.1
             resource_type := "model".data
             materialization := "incremental".data
             database := node.database
             schema := node.schema
             alias_ := node.alias_.orElse fun _ => node.name
             name := node.name }
    else none
  else if node.resource_type = some "snapshot".data then
    some { unique_id := kv.1
           resource_type := "snapshot".data
           materialization := "snapshot".data
           database := node.database
           schema := node.schema
           alias_ := node.alias_.orElse fun _ => node.name
           name := node.name }
  else none

/-- `matching_keys = [k for k in all_prod.keys() if model_name in k and
k.endswith(model_name)]`, carried out on an association-list model of the
merged manifest mapping. -/
def matchingEntries (all_prod : List (Str × ManifestNode)) (model_name : Str) :
    List (Str × ManifestNode) :=
  all_prod.filter fun kv => containsSub model_name kv.1 && endsWithB kv.1 model_name

/-- Shallow embedding of `DbtHelper.filter_incremental_and_snapshots`
(`dbt_helper.py`).  `modified_nodes` is the set of raw changed-node strings
(as a list, Python set iteration order being immaterial to the claims) and
`all_prod` is `{**manifest.nodes, **manifest.sources}` as an association
list. -/
def filter_incremental_and_snapshots (modified_nodes : List Str)
    (all_prod : List (Str × ManifestNode)) : List Candidate :=
  (modified_nodes.map fun node_name =>
    (matchingEntries all_prod (lastSegment node_name)).filterMap candidateOf).flatten

/-! ### TableCopier (copier.py) -/

/-- Python string truthiness for an optional string: `None` and the empty
string are falsy. -/
def pyTruthy : Option Str → Bool
  | none => false
  | some s => !s.isEmpty

/-- Python `s.strip()`: drop leading and trailing whitespace. -/
def pyStrip (s : Str) : Str :=
  ((s.dropWhile Char.isWhitespace).reverse.dropWhile Char.isWhitespace).reverse

/-- The statement splitting applied by `_copy_single_table`:
`[s.strip() for s in query.split(';') if s.strip()]`. -/
def splitStatements (q : Str) : List Str :=
  ((splitOnChar ';' q).map pyStrip).filter fun s => s ≠ []

/-- A newline followed by the sixteen spaces of indentation inside the
triple-quoted f-strings of `_build_copy_query`. -/
def nl16 : Str := '\n' :: List.replicate 16 ' '

/-- A newline followed by the twelve spaces before the closing quotes of the
triple-quoted f-strings of `_build_copy_query`. -/
def nl12 : Str := '\n' :: List.replicate 12 ' '

/-- The drop-then-recreate f-string used by `_build_copy_query` for the
postgresql/redshift, trino and generic branches (character-identical in the
source). -/
def dropCreateQuery (target_full source_full : Str) : Str :=
  nl16 ++ "DROP TABLE IF EXISTS ".data ++ target_full ++ ";".data ++
    nl16 ++ "CREATE TABLE ".data ++ target_full ++ " AS SELECT * FROM ".data ++
    source_full ++ ";".data ++ nl12

/-- The `CREATE OR REPLACE TABLE` f-string used by `_build_copy_query` for the
bigquery branch. -/
def bigqueryQuery (target_full source_full : Str) : Str :=
  nl16 ++ "CREATE OR REPLACE TABLE `".data ++ target_full ++ "`".data ++
    nl16 ++ "AS SELECT * FROM `".data ++ source_full ++ "`".data ++ nl12

/-- The state of a `TableCopier` (its `__init__` fields).  `engine_dialect`
stands for `self.engine.dialect.name`, the dialect the live engine reports;
it is only consulted when an engine exists. -/
structure TableCopier where
  database_uri : Str
  ci_schema : Str
  base_schema : Option Str
  threads : Nat
  dry_run : Bool
  engine : Option Unit
  engine_dialect : Str
deriving Repr

/-- `TableCopier.__init__`: the engine is created only when not in dry-run
mode (`self.engine = None if dry_run else create_engine(database_uri)`). -/
def TableCopier.init (database_uri ci_schema : Str) (threads : Nat)
    (dry_run : Bool) (base_schema : Option Str) (engine_dialect : Str) :
    TableCopier :=
  { database_uri := database_uri
    ci_schema := ci_schema
    base_schema := base_schema
    threads := threads
    dry_run := dry_run
    engine := if dry_run then none else some ()
    engine_dialect := engine_dialect }

/-- `TableCopier._get_dialect_name`: in dry-run mode the dialect is parsed
from the connection URI by substring match; otherwise it is the engine's
reported dialect. -/
def TableCopier.get_dialect_name (c : TableCopier) : Str :=
  if c.dry_run then
    if containsSub "postgresql".data c.database_uri then "postgresql".data
    else if containsSub "redshift".data c.database_uri then "redshift".data
    else if containsSub "bigquery".data c.database_uri then "bigquery".data
    else if containsSub "trino".data c.database_uri then "trino".data
    else "unknown".data
  else c.engine_dialect

/-- `TableCopier._compute_target_schema`.  Python's `if not self.base_schema`
also treats an empty base schema as unset. -/
def TableCopier.compute_target_schema (c : TableCopier) (source_schema : Str) :
    Str :=
  match c.base_schema with
  | none => c.ci_schema
  | some bs =>
    if bs = [] then c.ci_schema
    else if bs.isPrefixOf source_schema then
      let suffix := source_schema.drop bs.length
      if suffix ≠ [] then c.ci_schema ++ suffix
      else c.ci_schema
    else c.ci_schema

/-- The database interactions a copier can perform: acquiring a connection
(`engine.connect()`) and executing one statement (`conn.execute(text(...))`).
A Python exception is modelled as `.error msg`. -/
structure DBEnv where
  connect : Except Str Unit
  execStmt : Str → Except Str Unit

/-- The `CREATE SCHEMA` statement text chosen per dialect inside
`_create_schema_if_not_exists`. -/
def createSchemaStmt (dialect target_schema : Str) : Str :=
  if dialect = "postgresql".data ∨ dialect = "redshift".data then
    "CREATE SCHEMA IF NOT EXISTS ".data ++ target_schema
  else if dialect = "trino".data then
    "CREATE SCHEMA ".data ++ target_schema
  else
    "CREATE SCHEMA IF NOT EXISTS ".data ++ target_schema

/-- `TableCopier._create_schema_if_not_exists`.  In the source the
`try/except` that logs and swallows errors sits inside
`with self.engine.connect() as conn:`, so every statement error is swallowed
but a failure of `engine.connect()` itself propagates out (returned here as
`.error`). -/
def TableCopier.create_schema_if_not_exists (c : TableCopier) (env : DBEnv)
    (schema_name : Option Str) : Except Str Unit :=
  let target_schema :=
    match schema_name with
    | some s => if s ≠ [] then s else c.ci_schema
    | none => c.ci_schema
  if c.dry_run then .ok ()
  else
    let dialect := c.get_dialect_name
    if dialect = "bigquery".data then .ok ()
    else
      match env.connect with
      | .error e => .error e
      | .ok () =>
        match env.execStmt (createSchemaStmt dialect target_schema) with
        | .ok () => .ok ()
        | .error _ => .ok ()

/-- `TableCopier._build_copy_query`.  The fully-qualified source reference
uses the database component only when it is truthy and the dialect is not
bigquery (`if source_database and dialect != 'bigquery'`). -/
def TableCopier.build_copy_query (c : TableCopier) (source_database : Option Str)
    (source_schema source_table target_table : Str) : Str :=
  let dialect := c.get_dialect_name
  let source_full :=
    if pyTruthy source_database ∧ dialect ≠ "bigquery".data then
      source_database.getD [] ++ ".".data ++ source_schema ++ ".".data ++ source_table
    else
      source_schema ++ ".".data ++ source_table
  let target_schema := c.compute_target_schema source_schema
  let target_full := target_schema ++ ".".data ++ target_table
  if dialect = "bigquery".data then
    bigqueryQuery target_full source_full
  else if dialect = "postgresql".data ∨ dialect = "redshift".data then
    dropCreateQuery target_full source_full
  else if dialect = "trino".data then
    dropCreateQuery target_full source_full
  else
    dropCreateQuery target_full source_full

/-- One node dict handed to `copy_tables` (a candidate produced by the change
resolver).  `unique_id`, `schema` and `name` are taken as present, as they are
for candidates built from a well-formed manifest; `database`, `alias` and
`materialization` keep their `dict.get` optionality. -/
structure CopyNode where
  unique_id : Str
  database : Option Str
  schema : Str
  alias_ : Option Str
  name : Str
  materialization : Option Str
deriving DecidableEq, Repr

/-- The result dict returned by `_copy_single_table`.  `error` is the
`'error'` entry (Python `None` ↦ `none`); `query` and `materialization` model
keys that only the dry-run dict carries. -/
structure Outcome where
  unique_id : Str
  source : Str
  target : Str
  materialization : Option Str
  status : Str
  error : Option Str
  query : Option Str
deriving DecidableEq, Repr, Inhabited

instance {ε α : Type} [DecidableEq ε] [DecidableEq α] :
    DecidableEq (Except ε α)
  | .ok a, .ok b =>
    if h : a = b then .isTrue (by rw [h])
    else .isFalse (by intro hh; cases hh; exact h rfl)
  | .ok _, .error _ => .isFalse (by intro h; cases h)
  | .error _, .ok _ => .isFalse (by intro h; cases h)
  | .error e, .error f =>
    if h : e = f then .isTrue (by rw [h])
    else .isFalse (by intro hh; cases hh; exact h rfl)

/-- Execute a list of statements in order on a connection, stopping at the
first raised error (the `for statement in statements:` loop). -/
def execAll (env : DBEnv) : List Str → Except Str Unit
  | [] => .ok ()
  | s :: rest =>
    match env.execStmt s with
    | .error e => .error e
    | .ok () => execAll env rest

/-- The statement-execution phase of `_copy_single_table`: open a connection,
then either execute the split statements one by one (postgresql, redshift,
trino) or the whole query as a single statement. -/
def TableCopier.runStatements (c : TableCopier) (env : DBEnv) (query : Str) :
    Except Str Unit :=
  match env.connect with
  | .error e => .error e
  | .ok () =>
    let dialect := c.get_dialect_name
    if dialect = "postgresql".data ∨ dialect = "redshift".data ∨
        dialect = "trino".data then
      execAll env (splitStatements query)
    else
      env.execStmt query

/-- `TableCopier._copy_single_table`.  The dry-run branch returns before any
database interaction.  The schema-ensure call happens before the `try`, so an
error it raises propagates (`.error`); everything raised inside the `try` is
turned into a `failed` outcome whose `error` is the message verbatim. -/
def TableCopier.copy_single_table (c : TableCopier) (env : DBEnv)
    (node : CopyNode) : Except Str Outcome :=
  let source_schema := node.schema
  let source_table := node.alias_.getD node.name
  let target_schema := c.compute_target_schema source_schema
  if c.dry_run then
    let query := c.build_copy_query node.database source_schema source_table
      source_table
    .ok { unique_id := node.unique_id
          source := source_schema ++ ".".data ++ source_table
          target := target_schema ++ ".".data ++ source_table
          materialization := some (node.materialization.getD "unknown".data)
          status := "dry_run".data
          error := none
          query := some (pyStrip query) }
  else
    match c.create_schema_if_not_exists env (some target_schema) with
    | .error e => .error e
    | .ok () =>
      let query := c.build_copy_query node.database source_schema source_table
        source_table
      match c.runStatements env query with
      | .ok () =>
        .ok { unique_id := node.unique_id
              source := source_schema ++ ".".data ++ source_table
              target := target_schema ++ ".".data ++ source_table
              materialization := none
              status := "success".data
              error := none
              query := none }
      | .error e =>
        .ok { unique_id := node.unique_id
              source := source_schema ++ ".".data ++ source_table
              target := target_schema ++ ".".data ++ source_table
              materialization := none
              status := "failed".data
              error := some e
              query := none }

/-- `TableCopier.copy_tables`.  With `threads == 1` the nodes are processed
strictly in order; otherwise a thread pool is used and results are collected
`as_completed`, modelled by a caller-supplied `completion` order over the
node indices (assumed a permutation of `List.range nodes.length`).  An
exception escaping `_copy_single_table` (or re-raised by `future.result()`)
aborts the whole call, which `Except` mirrors through `mapM`. -/
def TableCopier.copy_tables (c : TableCopier) (env : DBEnv)
    (completion : List Nat) (nodes : List CopyNode) :
    Except Str (List Outcome) :=
  if nodes.isEmpty then .ok []
  else if c.threads = 1 then
    nodes.mapM (c.copy_single_table env)
  else
    (completion.filterMap fun i => nodes[i]?).mapM (c.copy_single_table env)

/-! ### Fixtures and derived predicates used in the theorems -/

/-- A manifest entry for an incremental model. -/
def nodeIncEx : ManifestNode :=
  { resource_type := some "model".data
    config := some ⟨some "incremental".data⟩
    database := some "db".data
    schema := some "core".data
    alias_ := none
    name := some "t".data }

/-- A manifest model entry whose config has no `materialized` value. -/
def nodeNoMatEx : ManifestNode :=
  { resource_type := some "model".data
    config := some ⟨none⟩
    database := none
    schema := some "core".data
    alias_ := none
    name := some "t".data }

/-- A copier built for a CI schema `ci` over production base schema `core`. -/
def coreCopier : TableCopier :=
  TableCopier.init "postgresql://h/db".data "ci".data 1 true
    (some "core".data) "postgresql".data

/-- The matching criterion as the claim states it: the key ends with the
fragment as a dotted-path trailing segment, i.e. the key is the fragment or
ends with a dot followed by the fragment.  This definition follows the
spec's words, to be compared with the source's plain `endswith` test. -/
def specDottedSuffixB (key frag : Str) : Bool :=
  key == frag || endsWithB key ('.' :: frag)

/-- Identifier-shaped strings: no semicolon and no whitespace characters.
Interpolating such components into the query templates keeps the
semicolon-split statement structure intact. -/
def goodChars (s : Str) : Bool :=
  s.all fun ch => !(ch == ';') && !ch.isWhitespace

/-- A non-dry-run copier connected to a postgresql engine. -/
def pgCopier : TableCopier :=
  TableCopier.init "postgresql://h/db".data "ci".data 1 false none
    "postgresql".data

/-- A changed incremental-model node handed to the copier. -/
def node1 : CopyNode :=
  ⟨"model.p.t1".data, some "db".data, "core".data, none, "t1".data,
    some "incremental".data⟩

/-- A second node; the witness environment fails on its statements. -/
def node2 : CopyNode :=
  ⟨"model.p.t2".data, some "db".data, "core".data, none, "t2".data,
    some "incremental".data⟩

/-- A third node. -/
def node3 : CopyNode :=
  ⟨"model.p.t3".data, some "db".data, "core".data, none, "t3".data,
    some "snapshot".data⟩

/-- The three-candidate scenario from the spec's isolation property. -/
def threeNodes : List CopyNode := [node1, node2, node3]

/-- A database that accepts every interaction. -/
def okEnv : DBEnv := ⟨.ok (), fun _ => .ok ()⟩

/-- A database that refuses every interaction. -/
def downEnv : DBEnv := ⟨.error "down".data, fun _ => .error "down".data⟩

/-- A database whose statement execution fails exactly on statements naming
the second node's table. -/
def failOn2Env : DBEnv :=
  ⟨.ok (), fun s =>
    if containsSub "t2".data s then .error "boom".data else .ok ()⟩

/-- A database that connects but refuses every `CREATE SCHEMA` statement. -/
def schemaFailEnv : DBEnv :=
  ⟨.ok (), fun s =>
    if containsSub "CREATE SCHEMA".data s then .error "denied".data
    else .ok ()⟩

/-- A database whose connection acquisition fails. -/
def connectFailEnv : DBEnv := ⟨.error "no connection".data, fun _ => .ok ()⟩

/-- A non-dry-run copier connected to a live postgresql engine. -/
def execCopier : TableCopier :=
  TableCopier.init "postgresql://h/db".data "ci".data 1 false none
    "postgresql".data

/-- A copier identical to `execCopier` but running a two-thread pool. -/
def poolCopier : TableCopier :=
  TableCopier.init "postgresql://h/db".data "ci".data 2 false none
    "postgresql".data

/-! ### Helper lemmas -/

/-- `containsSub` decides substring containment. -/
theorem containsSub_iff (n h : Str) : containsSub n h = true ↔ n <:+: h := by
  induction h with
  | nil => simp [containsSub, List.isEmpty_iff]
  | cons c t ih =>
    simp [containsSub, Bool.or_eq_true, List.isPrefixOf_iff_prefix, ih,
      List.infix_cons_iff]

/-- `endsWithB` decides the list-suffix relation. -/
theorem endsWithB_iff (s suf : Str) : endsWithB s suf = true ↔ suf <:+ s := by
  rw [endsWithB, List.isPrefixOf_iff_prefix, List.reverse_prefix]

/-- A string suffix is in particular a substring, so the redundant
`model_name in k` conjunct of the source's matching test never filters
anything out. -/
theorem containsSub_of_endsWithB {s suf : Str} (h : endsWithB s suf = true) :
    containsSub suf s = true := by
  rw [containsSub_iff]
  exact ((endsWithB_iff s suf).1 h).isInfix

/-- Any candidate emitted for one manifest entry is an incremental model or a
snapshot. -/
theorem candidateOf_shape {kv : Str × ManifestNode} {cand : Candidate}
    (h : candidateOf kv = some cand) :
    (cand.resource_type = "model".data ∧
      cand.materialization = "incremental".data) ∨
    (cand.resource_type = "snapshot".data ∧
      cand.materialization = "snapshot".data) := by
  simp only [candidateOf] at h
  split_ifs at h with h1 h2 h3 <;>
    first
      | (injection h with h'
         subst h'
         exact Or.inl ⟨rfl, rfl⟩)
      | (injection h with h'
         subst h'
         exact Or.inr ⟨rfl, rfl⟩)
      | injection h

/-! ### C1 -/

/-- C1: every element of the candidate list returned by
`filter_incremental_and_snapshots` has resource type `model` with
materialization `incremental`, or resource type `snapshot` with
materialization `snapshot`; nothing else is ever emitted. -/
theorem candidates_are_incremental_or_snapshot
    (modified_nodes : List Str) (all_prod : List (Str × ManifestNode))
    (cand : Candidate)
    (hmem : cand ∈ filter_incremental_and_snapshots modified_nodes all_prod) :
    (cand.resource_type = "model".data ∧
      cand.materialization = "incremental".data) ∨
    (cand.resource_type = "snapshot".data ∧
      cand.materialization = "snapshot".data) := by
  unfold filter_incremental_and_snapshots at hmem
  rw [List.mem_flatten] at hmem
  obtain ⟨l, hl, hcl⟩ := hmem
  rw [List.mem_map] at hl
  obtain ⟨raw, _, rfl⟩ := hl
  rw [List.mem_filterMap] at hcl
  obtain ⟨kv, _, hkv⟩ := hcl
  exact candidateOf_shape hkv

/-- Witness for C1 at a concrete changed-node set and manifest. -/
theorem candidates_are_incremental_or_snapshot_witness :
    (candidateOf ("model.p.t".data, nodeIncEx)).getD default ∈
      filter_incremental_and_snapshots ["p.d.t".data]
        [("model.p.t".data, nodeIncEx)] ∧
    ((((candidateOf ("model.p.t".data, nodeIncEx)).getD default).resource_type =
        "model".data ∧
      ((candidateOf ("model.p.t".data, nodeIncEx)).getD default).materialization =
        "incremental".data) ∨
    (((candidateOf ("model.p.t".data, nodeIncEx)).getD default).resource_type =
        "snapshot".data ∧
      ((candidateOf ("model.p.t".data, nodeIncEx)).getD default).materialization =
        "snapshot".data)) := by
  refine ⟨by decide, ?_⟩
  exact candidates_are_incremental_or_snapshot ["p.d.t".data]
    [("model.p.t".data, nodeIncEx)] _ (by decide)

/-! ### C2 -/

/-- C2 counterexample: for raw string `x.orders` (final segment `orders`) and
manifest key `model.p.stg_orders`, the key does not end with `orders` as a
dotted-path trailing segment, yet the resolver emits a candidate for it, so
the resolver does not consider exactly the dotted-suffix matches. -/
theorem resolver_matching_counterexample :
    specDottedSuffixB "model.p.stg_orders".data
        (lastSegment "x.orders".data) = false ∧
    filter_incremental_and_snapshots ["x.orders".data]
        [("model.p.stg_orders".data, nodeIncEx)] ≠ [] ∧
    filter_incremental_and_snapshots ["x.orders".data]
        [("model.p.stg_orders".data, nodeIncEx)] ≠
      (([("model.p.stg_orders".data, nodeIncEx)].filter fun kv =>
          specDottedSuffixB kv.1 (lastSegment "x.orders".data)).filterMap
        candidateOf) := by
  refine ⟨by decide, by decide, by decide⟩

/-- C2 amended: for every raw changed-node string the resolver considers
exactly those manifest entries whose key ends with the raw string's final
dotted segment as a plain string suffix (no dot-boundary requirement); a raw
string matching zero entries contributes no candidates and raises no error,
and each matching entry yields its own separate candidate. -/
theorem resolver_matching_amended (modified_nodes : List Str)
    (all_prod : List (Str × ManifestNode)) :
    filter_incremental_and_snapshots modified_nodes all_prod =
      (modified_nodes.map fun raw =>
        (all_prod.filter fun kv =>
          endsWithB kv.1 (lastSegment raw)).filterMap candidateOf).flatten := by
  unfold filter_incremental_and_snapshots matchingEntries
  apply congrArg List.flatten
  apply List.map_congr_left
  intro raw _
  apply congrArg (List.filterMap candidateOf)
  apply List.filter_congr
  intro kv _
  cases hE : endsWithB kv.1 (lastSegment raw) with
  | true => simp [containsSub_of_endsWithB hE]
  | false => simp

/-! ### C10 -/

/-- A model entry without a usable `materialized` value yields no candidate. -/
theorem candidateOf_none_of_no_materialization (key : Str)
    {node : ManifestNode} (hrt : node.resource_type = some "model".data)
    (hcfg : node.config = none ∨
      (node.config.getD ⟨none⟩).materialized = none) :
    candidateOf (key, node) = none := by
  rcases hcfg with h | h
  · simp [candidateOf, hrt, h]
  · simp [candidateOf, hrt, h]

/-- C10: a manifest model entry whose config is absent or lacks a
`materialized` value is handled totally: it yields no candidate (and, the
embedding being a total function, raises no error) for every changed-node
set matching it. -/
theorem model_without_materialization_yields_nothing
    (modified_nodes : List Str) (key : Str) (node : ManifestNode)
    (hrt : node.resource_type = some "model".data)
    (hcfg : node.config = none ∨
      (node.config.getD ⟨none⟩).materialized = none) :
    filter_incremental_and_snapshots modified_nodes [(key, node)] = [] := by
  have hnone := candidateOf_none_of_no_materialization key hrt hcfg
  unfold filter_incremental_and_snapshots
  rw [List.flatten_eq_nil_iff]
  intro l hl
  rw [List.mem_map] at hl
  obtain ⟨raw, _, rfl⟩ := hl
  rw [List.filterMap_eq_nil_iff]
  intro kv hkv
  have hkv' : kv ∈ [(key, node)] := List.mem_of_mem_filter hkv
  rw [List.mem_singleton] at hkv'
  subst hkv'
  exact hnone

/-- Witness for C10: a model whose config carries no `materialized` value is
skipped even when its key matches the changed node. -/
theorem model_without_materialization_yields_nothing_witness :
    nodeNoMatEx.resource_type = some "model".data ∧
    (nodeNoMatEx.config = none ∨
      (nodeNoMatEx.config.getD ⟨none⟩).materialized = none) ∧
    filter_incremental_and_snapshots ["p.d.t".data]
      [("model.p.t".data, nodeNoMatEx)] = [] := by
  refine ⟨by decide, by decide, ?_⟩
  exact model_without_materialization_yields_nothing _ _ _ (by decide)
    (by decide)

/-! ### C3 -/

/-- C3: the schema namer returns the CI schema when the base schema is unset
(Python-falsy: `None` or empty), the CI schema when the source schema does
not start with the base schema, and otherwise the CI schema concatenated
with the remainder of the source schema after the base-schema prefix; with
base `core` and CI schema `ci`, source `core_marts` maps to `ci_marts` and
sources `core` and `other` both map to `ci`. -/
theorem compute_target_schema_spec (c : TableCopier) (src : Str) :
    (c.base_schema = none → c.compute_target_schema src = c.ci_schema) ∧
    (c.base_schema = some [] → c.compute_target_schema src = c.ci_schema) ∧
    (∀ bs, c.base_schema = some bs → bs ≠ [] →
      bs.isPrefixOf src = false →
      c.compute_target_schema src = c.ci_schema) ∧
    (∀ bs, c.base_schema = some bs → bs ≠ [] →
      bs.isPrefixOf src = true →
      c.compute_target_schema src = c.ci_schema ++ src.drop bs.length) ∧
    coreCopier.compute_target_schema "core_marts".data = "ci_marts".data ∧
    coreCopier.compute_target_schema "core".data = "ci".data ∧
    coreCopier.compute_target_schema "other".data = "ci".data := by
  refine ⟨?_, ?_, ?_, ?_, by decide, by decide, by decide⟩
  · intro h
    simp [TableCopier.compute_target_schema, h]
  · intro h
    simp [TableCopier.compute_target_schema, h]
  · intro bs hb hne hpre
    simp [TableCopier.compute_target_schema, hb, hne, hpre]
  · intro bs hb hne hpre
    simp only [TableCopier.compute_target_schema, hb, if_neg hne]
    rw [if_pos hpre]
    by_cases hsuf : src.drop bs.length = []
    · simp [hsuf]
    · simp [hsuf]

/-- Witness for C3 at base schema `core`, CI schema `ci`, source
`core_marts`. -/
theorem compute_target_schema_spec_witness :
    (coreCopier.base_schema = none →
      coreCopier.compute_target_schema "core_marts".data =
        coreCopier.ci_schema) ∧
    (coreCopier.base_schema = some [] →
      coreCopier.compute_target_schema "core_marts".data =
        coreCopier.ci_schema) ∧
    (∀ bs, coreCopier.base_schema = some bs → bs ≠ [] →
      bs.isPrefixOf "core_marts".data = false →
      coreCopier.compute_target_schema "core_marts".data =
        coreCopier.ci_schema) ∧
    (∀ bs, coreCopier.base_schema = some bs → bs ≠ [] →
      bs.isPrefixOf "core_marts".data = true →
      coreCopier.compute_target_schema "core_marts".data =
        coreCopier.ci_schema ++ "core_marts".data.drop bs.length) ∧
    coreCopier.compute_target_schema "core_marts".data = "ci_marts".data ∧
    coreCopier.compute_target_schema "core".data = "ci".data ∧
    coreCopier.compute_target_schema "other".data = "ci".data :=
  compute_target_schema_spec coreCopier "core_marts".data

/-! ### String lemmas for statement splitting and stripping -/

/-- Dropping over a fully-satisfying prefix skips it. -/
theorem dropWhile_append_of_forall {p : Char → Bool} {a : Str} (b : Str)
    (ha : ∀ c ∈ a, p c = true) :
    (a ++ b).dropWhile p = b.dropWhile p := by
  induction a with
  | nil => simp
  | cons x xs ih =>
    rw [List.cons_append, List.dropWhile_cons,
      if_pos (ha x (List.mem_cons_self x xs))]
    exact ih fun c hc => ha c (List.mem_cons_of_mem x hc)

/-- Stripping an all-whitespace string yields the empty string. -/
theorem pyStrip_eq_nil {s : Str} (hs : ∀ c ∈ s, c.isWhitespace = true) :
    pyStrip s = [] := by
  have h : s.dropWhile Char.isWhitespace = [] :=
    List.dropWhile_eq_nil_iff.mpr hs
  simp [pyStrip, h]

/-- Stripping whitespace padding around a block whose first and last
characters are not whitespace returns the block unchanged. -/
theorem pyStrip_block (w1 w2 x : Str) (c1 : Char) (m1 : Str)
    (hw1 : ∀ c ∈ w1, c.isWhitespace = true)
    (hw2 : ∀ c ∈ w2, c.isWhitespace = true)
    (hx : x = c1 :: m1) (hc1 : c1.isWhitespace = false)
    (c2 : Char) (m2 : Str) (hxr : x.reverse = c2 :: m2)
    (hc2 : c2.isWhitespace = false) :
    pyStrip (w1 ++ x ++ w2) = x := by
  unfold pyStrip
  rw [List.append_assoc, dropWhile_append_of_forall _ hw1]
  rw [hx, List.cons_append, List.dropWhile_cons, if_neg (by simp [hc1])]
  rw [show c1 :: (m1 ++ w2) = (c1 :: m1) ++ w2 by simp, ← hx]
  rw [List.reverse_append,
    dropWhile_append_of_forall _ (fun c hc => hw2 c (List.mem_reverse.mp hc))]
  rw [hxr, List.dropWhile_cons, if_neg (by simp [hc2]), ← hxr,
    List.reverse_reverse]

/-- Stripping whitespace padding around `x ++ y` where `x` starts with a
non-whitespace character (it may contain whitespace inside) and `y` is
non-empty and whitespace-free. -/
theorem pyStrip_mid (w1 w2 x y : Str) (d : Char) (xrest : Str)
    (hw1 : ∀ c ∈ w1, c.isWhitespace = true)
    (hw2 : ∀ c ∈ w2, c.isWhitespace = true)
    (hx : x = d :: xrest) (hd : d.isWhitespace = false)
    (hy : ∀ c ∈ y, c.isWhitespace = false) (hyne : y ≠ []) :
    pyStrip (w1 ++ (x ++ y) ++ w2) = x ++ y := by
  obtain ⟨c2, m2, h2⟩ :=
    List.exists_cons_of_ne_nil (by simpa using hyne : y.reverse ≠ [])
  have hc2 : c2.isWhitespace = false := by
    apply hy
    exact List.mem_reverse.mp (h2 ▸ List.mem_cons_self c2 m2)
  refine pyStrip_block w1 w2 (x ++ y) d (xrest ++ y) hw1 hw2 (by simp [hx]) hd
    c2 (m2 ++ x.reverse) ?_ hc2
  rw [List.reverse_append, h2, List.cons_append]

/-- A non-whitespace member of a string survives whitespace `dropWhile`. -/
theorem mem_dropWhile_of_neg {p : Char → Bool} {l : Str} {ch : Char}
    (hch : ch ∈ l) (hp : p ch = false) : ch ∈ l.dropWhile p := by
  rw [← List.takeWhile_append_dropWhile (p := p) (l := l)] at hch
  rcases List.mem_append.mp hch with h | h
  · exact absurd (List.mem_takeWhile_imp h) (by simp [hp])
  · exact h

/-- A string containing a non-whitespace character strips to something
non-empty. -/
theorem pyStrip_ne_nil_of_mem {s : Str} {ch : Char} (hch : ch ∈ s)
    (hw : ch.isWhitespace = false) : pyStrip s ≠ [] := by
  unfold pyStrip
  intro h
  rw [List.reverse_eq_nil_iff] at h
  have h2 : ch ∈ ((s.dropWhile Char.isWhitespace).reverse).dropWhile
      Char.isWhitespace :=
    mem_dropWhile_of_neg (List.mem_reverse.mpr (mem_dropWhile_of_neg hch hw)) hw
  rw [h] at h2
  exact absurd h2 (List.not_mem_nil ch)

/-- Splitting a string that does not contain the separator is the identity. -/
theorem splitOnChar_of_not_mem {sep : Char} {s : Str} (h : sep ∉ s) :
    splitOnChar sep s = [s] := by
  induction s with
  | nil => rfl
  | cons c t ih =>
    have hc : ¬ c = sep := fun hh => h (hh ▸ List.mem_cons_self c t)
    simp only [splitOnChar]
    rw [if_neg hc, ih fun hm => h (List.mem_cons_of_mem c hm)]

/-- Splitting peels off a separator-free prefix before the separator. -/
theorem splitOnChar_append_cons {sep : Char} {a : Str} (b : Str)
    (h : sep ∉ a) :
    splitOnChar sep (a ++ sep :: b) = a :: splitOnChar sep b := by
  induction a with
  | nil =>
    simp [splitOnChar]
  | cons c t ih =>
    have hc : ¬ c = sep := fun hh => h (hh ▸ List.mem_cons_self c t)
    have ht := ih fun hm => h (List.mem_cons_of_mem c hm)
    simp only [List.cons_append, splitOnChar, List.append_eq]
    rw [if_neg hc, ht]

/-! ### C4 support: statement shape of the built queries -/

theorem not_semi_of_goodChars {s : Str} (h : goodChars s = true) : ';' ∉ s := by
  intro hm
  have := List.all_eq_true.mp h ';' hm
  simp at this

theorem not_ws_of_goodChars {s : Str} (h : goodChars s = true) :
    ∀ c ∈ s, c.isWhitespace = false := by
  intro c hc
  have := List.all_eq_true.mp h c hc
  simp at this
  exact this.2

/-- Splitting and stripping the drop-then-recreate query yields exactly the
two statements, provided the interpolated references are identifier-shaped. -/
theorem splitStatements_dropCreate (tf sf : Str)
    (htf : goodChars tf = true) (hsf : goodChars sf = true)
    (htfne : tf ≠ []) (hsfne : sf ≠ []) :
    splitStatements (dropCreateQuery tf sf) =
      ["DROP TABLE IF EXISTS ".data ++ tf,
       "CREATE TABLE ".data ++ tf ++ " AS SELECT * FROM ".data ++ sf] := by
  have hq : dropCreateQuery tf sf =
      (nl16 ++ ("DROP TABLE IF EXISTS ".data ++ tf)) ++ ';' ::
        ((nl16 ++ (("CREATE TABLE ".data ++ tf ++ " AS SELECT * FROM ".data)
          ++ sf)) ++ ';' :: nl12) := by
    simp [dropCreateQuery, List.append_assoc]
  have hno1 : ';' ∉ nl16 ++ ("DROP TABLE IF EXISTS ".data ++ tf) := by
    intro hm
    rcases List.mem_append.mp hm with h | h
    · exact absurd h (by decide)
    rcases List.mem_append.mp h with h | h
    · exact absurd h (by decide)
    · exact not_semi_of_goodChars htf h
  have hno2 : ';' ∉ nl16 ++ (("CREATE TABLE ".data ++ tf ++
      " AS SELECT * FROM ".data) ++ sf) := by
    intro hm
    rcases List.mem_append.mp hm with h | h
    · exact absurd h (by decide)
    rcases List.mem_append.mp h with h | h
    · rcases List.mem_append.mp h with h | h
      · rcases List.mem_append.mp h with h | h
        · exact absurd h (by decide)
        · exact not_semi_of_goodChars htf h
      · exact absurd h (by decide)
    · exact not_semi_of_goodChars hsf h
  have hno3 : ';' ∉ nl12 := by decide
  rw [splitStatements, hq, splitOnChar_append_cons _ hno1,
    splitOnChar_append_cons _ hno2, splitOnChar_of_not_mem hno3]
  have hs1 : pyStrip (nl16 ++ ("DROP TABLE IF EXISTS ".data ++ tf)) =
      "DROP TABLE IF EXISTS ".data ++ tf := by
    have := pyStrip_mid nl16 [] "DROP TABLE IF EXISTS ".data tf 'D'
      "ROP TABLE IF EXISTS ".data (by decide) (by simp) rfl (by decide)
      (not_ws_of_goodChars htf) htfne
    simpa using this
  have hs2 : pyStrip (nl16 ++ (("CREATE TABLE ".data ++ tf ++
      " AS SELECT * FROM ".data) ++ sf)) =
      ("CREATE TABLE ".data ++ tf ++ " AS SELECT * FROM ".data) ++ sf := by
    have := pyStrip_mid nl16 []
      ("CREATE TABLE ".data ++ tf ++ " AS SELECT * FROM ".data) sf 'C'
      ("REATE TABLE ".data ++ tf ++ " AS SELECT * FROM ".data) (by decide)
      (by simp) rfl (by decide) (not_ws_of_goodChars hsf) hsfne
    simpa using this
  have hs3 : pyStrip nl12 = [] := pyStrip_eq_nil (by decide)
  rw [List.map_cons, List.map_cons, List.map_cons, List.map_nil, hs1, hs2, hs3]
  have hne1 : "DROP TABLE IF EXISTS ".data ++ tf ≠ [] := by
    simp
  have hne2 : ("CREATE TABLE ".data ++ tf ++ " AS SELECT * FROM ".data) ++ sf
      ≠ [] := by
    simp
  simp [List.filter_cons, hne1, hne2, List.append_assoc]

/-- Splitting and stripping the bigquery query yields exactly one statement,
and that statement contains `CREATE OR REPLACE TABLE`. -/
theorem splitStatements_bigquery (tf sf : Str)
    (htf : goodChars tf = true) (hsf : goodChars sf = true) :
    splitStatements (bigqueryQuery tf sf) =
      [("CREATE OR REPLACE TABLE `".data ++ tf ++ "`".data ++ nl16 ++
        "AS SELECT * FROM `".data) ++ (sf ++ "`".data)] := by
  have hq : bigqueryQuery tf sf =
      nl16 ++ (("CREATE OR REPLACE TABLE `".data ++ tf ++ "`".data ++ nl16 ++
        "AS SELECT * FROM `".data) ++ (sf ++ "`".data)) ++ nl12 := by
    simp [bigqueryQuery, List.append_assoc]
  have hno : ';' ∉ bigqueryQuery tf sf := by
    rw [hq]
    intro hm
    rcases List.mem_append.mp hm with h | h
    · rcases List.mem_append.mp h with h | h
      · exact absurd h (by decide)
      rcases List.mem_append.mp h with h | h
      · rcases List.mem_append.mp h with h | h
        · rcases List.mem_append.mp h with h | h
          · rcases List.mem_append.mp h with h | h
            · rcases List.mem_append.mp h with h | h
              · exact absurd h (by decide)
              · exact not_semi_of_goodChars htf h
            · exact absurd h (by decide)
          · exact absurd h (by decide)
        · exact absurd h (by decide)
      · rcases List.mem_append.mp h with h | h
        · exact not_semi_of_goodChars hsf h
        · exact absurd h (by decide)
    · exact absurd h (by decide)
  have hx : "CREATE OR REPLACE TABLE `".data ++ tf ++ "`".data ++ nl16 ++
      "AS SELECT * FROM `".data =
      'C' :: ("REATE OR REPLACE TABLE `".data ++ (tf ++ ("`".data ++ (nl16 ++
        "AS SELECT * FROM `".data)))) := by
    rw [show "CREATE OR REPLACE TABLE `".data =
      'C' :: "REATE OR REPLACE TABLE `".data from rfl]
    simp [List.append_assoc]
  have hy : ∀ c ∈ sf ++ "`".data, c.isWhitespace = false := by
    intro c hc
    rcases List.mem_append.mp hc with h | h
    · exact not_ws_of_goodChars hsf c h
    · exact (by decide : ∀ c ∈ "`".data, c.isWhitespace = false) c h
  have hyne : sf ++ "`".data ≠ [] := by
    intro h
    rcases List.append_eq_nil.mp h with ⟨-, h2⟩
    exact absurd h2 (by decide)
  have hstrip : pyStrip (bigqueryQuery tf sf) =
      ("CREATE OR REPLACE TABLE `".data ++ tf ++ "`".data ++ nl16 ++
        "AS SELECT * FROM `".data) ++ (sf ++ "`".data) := by
    rw [hq]
    exact pyStrip_mid nl16 nl12 _ _ 'C' _ (by decide) (by decide) hx
      (by decide) hy hyne
  rw [splitStatements, splitOnChar_of_not_mem hno, List.map_cons,
    List.map_nil, hstrip]
  have hne : ("CREATE OR REPLACE TABLE `".data ++ tf ++ "`".data ++ nl16 ++
      "AS SELECT * FROM `".data) ++ (sf ++ "`".data) ≠ [] := by
    rw [hx, List.cons_append]
    exact List.cons_ne_nil _ _
  simp [List.filter_cons, hne]

/-- Every character of a computed target schema comes from the CI schema or
from the source schema. -/
theorem compute_target_schema_chars (c : TableCopier) (src : Str) (ch : Char)
    (h : ch ∈ c.compute_target_schema src) : ch ∈ c.ci_schema ∨ ch ∈ src := by
  simp only [TableCopier.compute_target_schema] at h
  split at h
  · exact Or.inl h
  · split_ifs at h with h1 h2 h3
    · exact Or.inl h
    · rcases List.mem_append.mp h with h | h
      · exact Or.inl h
      · exact Or.inr (List.drop_subset _ _ h)
    · exact Or.inl h
    · exact Or.inl h

theorem goodChars_append {a b : Str} (ha : goodChars a = true)
    (hb : goodChars b = true) : goodChars (a ++ b) = true := by
  rw [goodChars, List.all_append]
  rw [goodChars] at ha hb
  simp [ha, hb]

theorem goodChars_compute_target (c : TableCopier) (src : Str)
    (hci : goodChars c.ci_schema = true) (hsrc : goodChars src = true) :
    goodChars (c.compute_target_schema src) = true := by
  rw [goodChars, List.all_eq_true]
  intro ch hch
  rcases compute_target_schema_chars c src ch hch with h | h
  · exact List.all_eq_true.mp hci ch h
  · exact List.all_eq_true.mp hsrc ch h

/-! ### C4 -/

/-- C4 counterexample: with a source schema containing a semicolon, the
postgres-like path of `_build_copy_query` does not produce exactly two
statements (the executor's semicolon split cuts the query into three), so
the claim's unrestricted universal quantification over strings fails. -/
theorem build_copy_query_counterexample :
    pgCopier.get_dialect_name = "postgresql".data ∧
    (splitStatements (pgCopier.build_copy_query none "a;b".data "t".data
      "t".data)).length = 3 ∧
    (splitStatements (pgCopier.build_copy_query none "a;b".data "t".data
      "t".data)).length ≠ 2 := by
  refine ⟨by decide, by decide, by decide⟩

/-- C4 amended: for identifier-shaped components (no semicolons, no
whitespace) the builder produces, for every non-bigquery dialect, exactly the
two statements `DROP TABLE IF EXISTS <target>` and
`CREATE TABLE <target> AS SELECT * FROM <source>`, and for the bigquery
dialect exactly one statement containing `CREATE OR REPLACE TABLE`; the
fully-qualified source reference is `database.schema.table` exactly when a
non-empty database component is present and the dialect is not bigquery,
and `schema.table` otherwise. -/
theorem build_copy_query_statements (c : TableCopier)
    (source_database : Option Str)
    (source_schema source_table target_table : Str)
    (hci : goodChars c.ci_schema = true)
    (hsch : goodChars source_schema = true)
    (hst : goodChars source_table = true)
    (htt : goodChars target_table = true)
    (hdb : ∀ s, source_database = some s → goodChars s = true)
    (hstne : source_table ≠ []) :
    (c.get_dialect_name ≠ "bigquery".data →
      splitStatements (c.build_copy_query source_database source_schema
          source_table target_table) =
        ["DROP TABLE IF EXISTS ".data ++
          (c.compute_target_schema source_schema ++ ".".data ++ target_table),
         "CREATE TABLE ".data ++
          (c.compute_target_schema source_schema ++ ".".data ++ target_table) ++
          " AS SELECT * FROM ".data ++
          (if pyTruthy source_database = true then
            source_database.getD [] ++ ".".data ++ source_schema ++ ".".data ++
              source_table
          else source_schema ++ ".".data ++ source_table)]) ∧
    (c.get_dialect_name = "bigquery".data →
      splitStatements (c.build_copy_query source_database source_schema
          source_table target_table) =
        [("CREATE OR REPLACE TABLE `".data ++
          (c.compute_target_schema source_schema ++ ".".data ++ target_table) ++
          "`".data ++ nl16 ++ "AS SELECT * FROM `".data) ++
          ((source_schema ++ ".".data ++ source_table) ++ "`".data)] ∧
      containsSub "CREATE OR REPLACE TABLE".data
        (("CREATE OR REPLACE TABLE `".data ++
          (c.compute_target_schema source_schema ++ ".".data ++ target_table) ++
          "`".data ++ nl16 ++ "AS SELECT * FROM `".data) ++
          ((source_schema ++ ".".data ++ source_table) ++ "`".data)) = true) := by
  have hdot : goodChars ".".data = true := by decide
  have htf : goodChars (c.compute_target_schema source_schema ++ ".".data ++
      target_table) = true :=
    goodChars_append (goodChars_append
      (goodChars_compute_target c source_schema hci hsch) hdot) htt
  have htfne : c.compute_target_schema source_schema ++ ".".data ++
      target_table ≠ [] := by
    intro h
    rcases List.append_eq_nil.mp h with ⟨h1, -⟩
    rcases List.append_eq_nil.mp h1 with ⟨-, h2⟩
    exact absurd h2 (by decide)
  have hsfshort : goodChars (source_schema ++ ".".data ++ source_table) =
      true :=
    goodChars_append (goodChars_append hsch hdot) hst
  have hsfshortne : source_schema ++ ".".data ++ source_table ≠ [] := by
    intro h
    rcases List.append_eq_nil.mp h with ⟨-, h2⟩
    exact hstne h2
  constructor
  · intro hd
    simp only [TableCopier.build_copy_query]
    rw [if_neg hd]
    have hcollapse :
        (if c.get_dialect_name = "postgresql".data ∨
            c.get_dialect_name = "redshift".data then
          dropCreateQuery (c.compute_target_schema source_schema ++ ".".data ++
            target_table)
            (if pyTruthy source_database = true ∧
                c.get_dialect_name ≠ "bigquery".data then
              source_database.getD [] ++ ".".data ++ source_schema ++
                ".".data ++ source_table
            else source_schema ++ ".".data ++ source_table)
        else if c.get_dialect_name = "trino".data then
          dropCreateQuery (c.compute_target_schema source_schema ++ ".".data ++
            target_table)
            (if pyTruthy source_database = true ∧
                c.get_dialect_name ≠ "bigquery".data then
              source_database.getD [] ++ ".".data ++ source_schema ++
                ".".data ++ source_table
            else source_schema ++ ".".data ++ source_table)
        else
          dropCreateQuery (c.compute_target_schema source_schema ++ ".".data ++
            target_table)
            (if pyTruthy source_database = true ∧
                c.get_dialect_name ≠ "bigquery".data then
              source_database.getD [] ++ ".".data ++ source_schema ++
                ".".data ++ source_table
            else source_schema ++ ".".data ++ source_table)) =
        dropCreateQuery (c.compute_target_schema source_schema ++ ".".data ++
          target_table)
          (if pyTruthy source_database = true ∧
              c.get_dialect_name ≠ "bigquery".data then
            source_database.getD [] ++ ".".data ++ source_schema ++
              ".".data ++ source_table
          else source_schema ++ ".".data ++ source_table) := by
      split_ifs <;> rfl
    rw [hcollapse]
    by_cases hpt : pyTruthy source_database = true
    · rw [if_pos ⟨hpt, hd⟩, if_pos hpt]
      have hsdb : ∃ s, source_database = some s ∧ s ≠ [] := by
        cases source_database with
        | none => exact absurd hpt (by simp [pyTruthy])
        | some s =>
          refine ⟨s, rfl, ?_⟩
          intro hnil
          rw [hnil] at hpt
          exact absurd hpt (by simp [pyTruthy, List.isEmpty_nil])
      obtain ⟨s, hs, -⟩ := hsdb
      have hsflong : goodChars (source_database.getD [] ++ ".".data ++
          source_schema ++ ".".data ++ source_table) = true := by
        refine goodChars_append (goodChars_append (goodChars_append
          (goodChars_append ?_ hdot) hsch) hdot) hst
        rw [hs]
        exact hdb s hs
      have hsflongne : source_database.getD [] ++ ".".data ++ source_schema ++
          ".".data ++ source_table ≠ [] := by
        intro h
        rcases List.append_eq_nil.mp h with ⟨-, h2⟩
        exact hstne h2
      exact splitStatements_dropCreate _ _ htf hsflong htfne hsflongne
    · rw [if_neg (fun hand => hpt hand.1), if_neg hpt]
      exact splitStatements_dropCreate _ _ htf hsfshort htfne hsfshortne
  · intro hd
    simp only [TableCopier.build_copy_query]
    rw [if_pos hd, if_neg (fun hand => hand.2 hd)]
    refine ⟨splitStatements_bigquery _ _ htf hsfshort, ?_⟩
    rw [containsSub_iff]
    apply List.IsPrefix.isInfix
    have h1 : "CREATE OR REPLACE TABLE".data <+:
        "CREATE OR REPLACE TABLE `".data := by decide
    refine h1.trans ?_
    rw [show ("CREATE OR REPLACE TABLE `".data ++
        (c.compute_target_schema source_schema ++ ".".data ++ target_table) ++
        "`".data ++ nl16 ++ "AS SELECT * FROM `".data) ++
        ((source_schema ++ ".".data ++ source_table) ++ "`".data) =
      "CREATE OR REPLACE TABLE `".data ++
        ((c.compute_target_schema source_schema ++ ".".data ++ target_table) ++
        ("`".data ++ (nl16 ++ ("AS SELECT * FROM `".data ++
        ((source_schema ++ ".".data ++ source_table) ++ "`".data)))))
      by simp [List.append_assoc]]
    exact List.prefix_append _ _

/-- Witness for C4 (amended) at concrete identifier-shaped inputs on the
postgresql dialect. -/
theorem build_copy_query_statements_witness :
    goodChars pgCopier.ci_schema = true ∧ goodChars "core".data = true ∧
    goodChars "t".data = true ∧ "t".data ≠ [] ∧
    pgCopier.get_dialect_name ≠ "bigquery".data ∧
    splitStatements (pgCopier.build_copy_query (some "db".data) "core".data
        "t".data "t".data) =
      ["DROP TABLE IF EXISTS ".data ++
        (pgCopier.compute_target_schema "core".data ++ ".".data ++ "t".data),
       "CREATE TABLE ".data ++
        (pgCopier.compute_target_schema "core".data ++ ".".data ++ "t".data) ++
        " AS SELECT * FROM ".data ++
        (if pyTruthy (some "db".data) = true then
          (some "db".data : Option Str).getD [] ++ ".".data ++ "core".data ++
            ".".data ++ "t".data
        else "core".data ++ ".".data ++ "t".data)] := by
  refine ⟨by decide, by decide, by decide, by decide, by decide, ?_⟩
  exact (build_copy_query_statements pgCopier (some "db".data) "core".data
    "t".data "t".data (by decide) (by decide) (by decide) (by decide)
    (fun s hs => by
      injection hs with h2
      subst h2
      decide) (by decide)).1 (by decide)

/-! ### Executor lemmas -/

theorem mapM_of_ok {α β : Type} (f : α → Except Str β) (g : α → β)
    (hf : ∀ a, f a = .ok (g a)) (l : List α) : l.mapM f = .ok (l.map g) := by
  induction l with
  | nil => rfl
  | cons x xs ih =>
    rw [List.mapM_cons, hf x, ih]
    rfl

theorem mapM_forall2 {α β : Type} (f : α → Except Str β) (P : α → β → Prop)
    (hf : ∀ a, ∃ b, f a = .ok b ∧ P a b) (l : List α) :
    ∃ rs, l.mapM f = .ok rs ∧ List.Forall₂ P l rs := by
  induction l with
  | nil => exact ⟨[], rfl, List.Forall₂.nil⟩
  | cons x xs ih =>
    obtain ⟨b, hb, hPb⟩ := hf x
    obtain ⟨rs, hrs, hP⟩ := ih
    refine ⟨b :: rs, ?_, List.Forall₂.cons hPb hP⟩
    rw [List.mapM_cons, hb, hrs]
    rfl

theorem range_filterMap_getElem {α : Type} (nodes : List α) :
    ((List.range nodes.length).filterMap fun i => nodes[i]?) = nodes := by
  induction nodes with
  | nil => rfl
  | cons x xs ih =>
    simp only [List.length_cons, List.range_succ_eq_map, List.filterMap_cons,
      List.getElem?_cons_zero, List.filterMap_map]
    have hcomp : ((fun i => (x :: xs)[i]?) ∘ Nat.succ) =
        fun i => xs[i]? := by
      funext i
      simp [List.getElem?_cons_succ]
    rw [hcomp, ih]

/-- The dry-run branch of `_copy_single_table`, in closed form: no database
interaction happens and the outcome carries the stripped preview query. -/
theorem copy_single_table_dry (c : TableCopier) (hdry : c.dry_run = true)
    (env : DBEnv) (node : CopyNode) :
    c.copy_single_table env node = .ok
      { unique_id := node.unique_id
        source := node.schema ++ ".".data ++ node.alias_.getD node.name
        target := c.compute_target_schema node.schema ++ ".".data ++
          node.alias_.getD node.name
        materialization := some (node.materialization.getD "unknown".data)
        status := "dry_run".data
        error := none
        query := some (pyStrip (c.build_copy_query node.database node.schema
          (node.alias_.getD node.name) (node.alias_.getD node.name))) } := by
  simp [TableCopier.copy_single_table, hdry]

theorem swallow_ok (r : Except Str Unit) :
    (match r with
     | .ok () => (.ok () : Except Str Unit)
     | .error _ => .ok ()) = .ok () := by
  cases r with
  | ok u => cases u; rfl
  | error e => rfl

/-- With a working connection, `_create_schema_if_not_exists` always returns
normally: every statement error raised inside it is swallowed. -/
theorem create_schema_ok (c : TableCopier) (env : DBEnv) (s : Option Str)
    (hconn : env.connect = .ok ()) :
    c.create_schema_if_not_exists env s = .ok () := by
  simp only [TableCopier.create_schema_if_not_exists]
  split_ifs with h1 h2
  · rfl
  · rfl
  · rw [hconn]
    exact swallow_ok _

/-- The non-dry-run branch of `_copy_single_table` with a working connection:
the outcome is `success` or `failed` exactly according to the statement run. -/
theorem copy_single_table_nondry (c : TableCopier) (env : DBEnv)
    (node : CopyNode) (hdry : c.dry_run = false)
    (hconn : env.connect = .ok ()) :
    c.copy_single_table env node =
      (match c.runStatements env (c.build_copy_query node.database node.schema
          (node.alias_.getD node.name) (node.alias_.getD node.name)) with
       | .ok () => .ok
          { unique_id := node.unique_id
            source := node.schema ++ ".".data ++ node.alias_.getD node.name
            target := c.compute_target_schema node.schema ++ ".".data ++
              node.alias_.getD node.name
            materialization := none
            status := "success".data
            error := none
            query := none }
       | .error e => .ok
          { unique_id := node.unique_id
            source := node.schema ++ ".".data ++ node.alias_.getD node.name
            target := c.compute_target_schema node.schema ++ ".".data ++
              node.alias_.getD node.name
            materialization := none
            status := "failed".data
            error := some e
            query := none }) := by
  have hcs := create_schema_ok c env
    (some (c.compute_target_schema node.schema)) hconn
  simp only [TableCopier.copy_single_table, hdry, Bool.false_eq_true,
    if_false, hcs]

/-- With a working connection, `_copy_single_table` never lets an exception
escape. -/
theorem copy_single_table_isOk (c : TableCopier) (env : DBEnv)
    (node : CopyNode) (hconn : env.connect = .ok ()) :
    ∃ out, c.copy_single_table env node = .ok out := by
  cases hdry : c.dry_run with
  | true => exact ⟨_, copy_single_table_dry c hdry env node⟩
  | false =>
    rw [copy_single_table_nondry c env node hdry hconn]
    cases hrun : c.runStatements env (c.build_copy_query node.database
        node.schema (node.alias_.getD node.name)
        (node.alias_.getD node.name)) with
    | ok u => cases u; exact ⟨_, rfl⟩
    | error e => exact ⟨_, rfl⟩

/-- An outcome produced by `_copy_single_table` keeps its node's unique id. -/
theorem copy_single_table_uid (c : TableCopier) (env : DBEnv)
    (node : CopyNode) (out : Outcome) (hconn : env.connect = .ok ())
    (h : c.copy_single_table env node = .ok out) :
    out.unique_id = node.unique_id := by
  cases hdry : c.dry_run with
  | true =>
    rw [copy_single_table_dry c hdry env node] at h
    injection h with h'
    subst h'
    rfl
  | false =>
    rw [copy_single_table_nondry c env node hdry hconn] at h
    revert h
    cases hrun : c.runStatements env (c.build_copy_query node.database
        node.schema (node.alias_.getD node.name)
        (node.alias_.getD node.name)) with
    | ok u =>
      cases u
      intro h
      injection h with h'
      subst h'
      rfl
    | error e =>
      intro h
      injection h with h'
      subst h'
      rfl

/-- With a working connection, `copy_tables` returns normally, and its
results stand in one-to-one correspondence with the processed node list:
the input list itself when `threads == 1`, the completion-ordered selection
otherwise. -/
theorem copy_tables_ok (c : TableCopier) (env : DBEnv) (completion : List Nat)
    (nodes : List CopyNode) (hconn : env.connect = .ok ()) :
    ∃ rs, c.copy_tables env completion nodes = .ok rs ∧
      (c.threads = 1 →
        List.Forall₂ (fun node out => c.copy_single_table env node = .ok out)
          nodes rs) ∧
      (c.threads ≠ 1 →
        List.Forall₂ (fun node out => c.copy_single_table env node = .ok out)
          (completion.filterMap fun i => nodes[i]?) rs) := by
  have hf : ∀ a, ∃ b, c.copy_single_table env a = .ok b ∧
      c.copy_single_table env a = .ok b := fun a => by
    obtain ⟨out, h⟩ := copy_single_table_isOk c env a hconn
    exact ⟨out, h, h⟩
  unfold TableCopier.copy_tables
  by_cases hmt : nodes.isEmpty
  · have hnil : nodes = [] := List.isEmpty_iff.mp hmt
    subst hnil
    refine ⟨[], by simp, fun _ => List.Forall₂.nil, fun _ => ?_⟩
    have h0 : (completion.filterMap fun i => ([] : List CopyNode)[i]?) = [] :=
      List.filterMap_eq_nil_iff.mpr (fun a _ => by simp)
    rw [h0]
    exact List.Forall₂.nil
  · rw [if_neg hmt]
    by_cases ht : c.threads = 1
    · rw [if_pos ht]
      obtain ⟨rs, hrs, hF⟩ := mapM_forall2 (c.copy_single_table env)
        (fun node out => c.copy_single_table env node = .ok out) hf nodes
      exact ⟨rs, hrs, fun _ => hF, fun h => absurd ht h⟩
    · rw [if_neg ht]
      obtain ⟨rs, hrs, hF⟩ := mapM_forall2 (c.copy_single_table env)
        (fun node out => c.copy_single_table env node = .ok out) hf
        (completion.filterMap fun i => nodes[i]?)
      exact ⟨rs, hrs, fun h => absurd h ht, fun _ => hF⟩

/-- Membership of the `D` of `DROP` in every drop-then-recreate query. -/
theorem mem_D_dropCreateQuery (tf sf : Str) : 'D' ∈ dropCreateQuery tf sf := by
  unfold dropCreateQuery
  refine List.mem_append_left _ (List.mem_append_left _ (List.mem_append_left _
    (List.mem_append_left _ (List.mem_append_left _ (List.mem_append_left _
    (List.mem_append_left _ (List.mem_append_left _ (List.mem_append_left _
    (List.mem_append_right _ ?_)))))))))
  decide

/-- Membership of the `C` of `CREATE` in every bigquery query. -/
theorem mem_C_bigqueryQuery (tf sf : Str) : 'C' ∈ bigqueryQuery tf sf := by
  unfold bigqueryQuery
  refine List.mem_append_left _ (List.mem_append_left _ (List.mem_append_left _
    (List.mem_append_left _ (List.mem_append_left _ (List.mem_append_left _
    (List.mem_append_left _ (List.mem_append_right _ ?_)))))))
  decide

/-- Every built query strips to a non-empty preview. -/
theorem pyStrip_build_ne_nil (c : TableCopier) (db : Option Str)
    (ss st tt : Str) :
    pyStrip (c.build_copy_query db ss st tt) ≠ [] := by
  simp only [TableCopier.build_copy_query]
  by_cases hbq : c.get_dialect_name = "bigquery".data
  · rw [if_pos hbq]
    exact pyStrip_ne_nil_of_mem (mem_C_bigqueryQuery _ _) (by decide)
  · rw [if_neg hbq]
    split_ifs <;>
      exact pyStrip_ne_nil_of_mem (mem_D_dropCreateQuery _ _) (by decide)

/-! ### C5 -/

/-- C5: in dry-run mode no engine is created and no database interaction is
consulted (the run's results are identical under any two environments), and
every outcome carries status `dry_run` together with a non-empty preview
statement. -/
theorem dry_run_purity (uri ci : Str) (threads : Nat) (base : Option Str)
    (ed : Str) (env env' : DBEnv) (completion : List Nat)
    (nodes : List CopyNode) :
    (TableCopier.init uri ci threads true base ed).engine = none ∧
    (TableCopier.init uri ci threads true base ed).copy_tables env completion
        nodes =
      (TableCopier.init uri ci threads true base ed).copy_tables env'
        completion nodes ∧
    ∀ rs, (TableCopier.init uri ci threads true base ed).copy_tables env
        completion nodes = .ok rs →
      ∀ o ∈ rs, o.status = "dry_run".data ∧
        ∃ q, o.query = some q ∧ q ≠ [] := by
  set c := TableCopier.init uri ci threads true base ed with hc
  have hdry : c.dry_run = true := rfl
  have hmap : ∀ (e : DBEnv) (l : List CopyNode),
      l.mapM (c.copy_single_table e) =
        .ok (l.map fun node =>
          { unique_id := node.unique_id
            source := node.schema ++ ".".data ++ node.alias_.getD node.name
            target := c.compute_target_schema node.schema ++ ".".data ++
              node.alias_.getD node.name
            materialization := some (node.materialization.getD "unknown".data)
            status := "dry_run".data
            error := none
            query := some (pyStrip (c.build_copy_query node.database
              node.schema (node.alias_.getD node.name)
              (node.alias_.getD node.name))) }) :=
    fun e l => mapM_of_ok _ _ (fun node => copy_single_table_dry c hdry e node) l
  refine ⟨rfl, ?_, ?_⟩
  · have hfun : c.copy_single_table env = c.copy_single_table env' := by
      funext node
      rw [copy_single_table_dry c hdry env node,
        copy_single_table_dry c hdry env' node]
    unfold TableCopier.copy_tables
    rw [hfun]
  · intro rs hrs o ho
    unfold TableCopier.copy_tables at hrs
    by_cases hmt : nodes.isEmpty
    · rw [if_pos hmt] at hrs
      injection hrs with h'
      subst h'
      exact absurd ho (List.not_mem_nil o)
    · rw [if_neg hmt] at hrs
      by_cases ht : c.threads = 1
      · rw [if_pos ht, hmap env nodes] at hrs
        injection hrs with h'
        subst h'
        rw [List.mem_map] at ho
        obtain ⟨node, -, rfl⟩ := ho
        exact ⟨rfl, _, rfl, pyStrip_build_ne_nil c _ _ _ _⟩
      · rw [if_neg ht, hmap env _] at hrs
        injection hrs with h'
        subst h'
        rw [List.mem_map] at ho
        obtain ⟨node, -, rfl⟩ := ho
        exact ⟨rfl, _, rfl, pyStrip_build_ne_nil c _ _ _ _⟩

/-- Witness for C5 at a concrete dry-run copier, two disagreeing databases
and one candidate. -/
theorem dry_run_purity_witness :
    (TableCopier.init "postgresql://h/db".data "ci".data 1 true
        (some "core".data) "x".data).engine = none ∧
    (TableCopier.init "postgresql://h/db".data "ci".data 1 true
        (some "core".data) "x".data).copy_tables okEnv [0] [node1] =
      (TableCopier.init "postgresql://h/db".data "ci".data 1 true
        (some "core".data) "x".data).copy_tables downEnv [0] [node1] ∧
    ∀ rs, (TableCopier.init "postgresql://h/db".data "ci".data 1 true
        (some "core".data) "x".data).copy_tables okEnv [0] [node1] = .ok rs →
      ∀ o ∈ rs, o.status = "dry_run".data ∧
        ∃ q, o.query = some q ∧ q ≠ [] :=
  dry_run_purity "postgresql://h/db".data "ci".data 1 (some "core".data)
    "x".data okEnv downEnv [0] [node1]

/-! ### C6 -/

/-- The failure shape of a single non-dry-run outcome: `failed` exactly when
the statement run raised, with the raised message recorded verbatim, and
`success` otherwise. -/
theorem copy_single_table_failure_props (c : TableCopier) (env : DBEnv)
    (node : CopyNode) (out : Outcome) (hdry : c.dry_run = false)
    (hconn : env.connect = .ok ())
    (h : c.copy_single_table env node = .ok out) :
    (out.status = "failed".data ↔
      ∃ m, c.runStatements env (c.build_copy_query node.database node.schema
        (node.alias_.getD node.name) (node.alias_.getD node.name)) =
          .error m) ∧
    (∀ m, c.runStatements env (c.build_copy_query node.database node.schema
        (node.alias_.getD node.name) (node.alias_.getD node.name)) =
          .error m → out.error = some m) ∧
    (out.status ≠ "failed".data → out.status = "success".data) := by
  rw [copy_single_table_nondry c env node hdry hconn] at h
  revert h
  cases hrun : c.runStatements env (c.build_copy_query node.database
      node.schema (node.alias_.getD node.name)
      (node.alias_.getD node.name)) with
  | ok u =>
    cases u
    intro h
    injection h with h'
    subst h'
    refine ⟨⟨fun hst => absurd hst
      (show ¬ ("success".data = "failed".data) by decide), ?_⟩, ?_,
      fun _ => rfl⟩
    · rintro ⟨m, hm⟩
      exact absurd hm (by simp)
    · intro m hm
      exact absurd hm (by simp)
  | error e =>
    intro h
    injection h with h'
    subst h'
    refine ⟨⟨fun _ => ⟨e, rfl⟩, fun _ => rfl⟩, ?_, ?_⟩
    · intro m hm
      injection hm with h2
      rw [h2]
    · intro hne
      exact absurd rfl hne

/-- C6: with a live connection, the executor returns normally with one
outcome per candidate (in input order sequentially, in completion order in
the pool path), any statement-execution error is caught and recorded as a
`failed` outcome carrying the message verbatim, and every other candidate
still runs. -/
theorem executor_isolation (c : TableCopier) (env : DBEnv)
    (completion : List Nat) (nodes : List CopyNode)
    (hdry : c.dry_run = false) (hconn : env.connect = .ok ())
    (hperm : completion.Perm (List.range nodes.length)) :
    ∃ rs base, c.copy_tables env completion nodes = .ok rs ∧
      rs.length = nodes.length ∧ base.Perm nodes ∧
      (c.threads = 1 → base = nodes) ∧
      List.Forall₂ (fun node out =>
        (out.status = "failed".data ↔
          ∃ m, c.runStatements env (c.build_copy_query node.database
            node.schema (node.alias_.getD node.name)
            (node.alias_.getD node.name)) = .error m) ∧
        (∀ m, c.runStatements env (c.build_copy_query node.database
            node.schema (node.alias_.getD node.name)
            (node.alias_.getD node.name)) = .error m →
          out.error = some m) ∧
        (out.status ≠ "failed".data → out.status = "success".data))
        base rs := by
  obtain ⟨rs, hrs, h1, h2⟩ := copy_tables_ok c env completion nodes hconn
  have hprops : ∀ (base : List CopyNode),
      List.Forall₂ (fun node out =>
        c.copy_single_table env node = .ok out) base rs →
      List.Forall₂ (fun node out =>
        (out.status = "failed".data ↔
          ∃ m, c.runStatements env (c.build_copy_query node.database
            node.schema (node.alias_.getD node.name)
            (node.alias_.getD node.name)) = .error m) ∧
        (∀ m, c.runStatements env (c.build_copy_query node.database
            node.schema (node.alias_.getD node.name)
            (node.alias_.getD node.name)) = .error m →
          out.error = some m) ∧
        (out.status ≠ "failed".data → out.status = "success".data))
        base rs := fun base hF =>
    hF.imp fun node out h =>
      copy_single_table_failure_props c env node out hdry hconn h
  by_cases ht : c.threads = 1
  · have hF := h1 ht
    exact ⟨rs, nodes, hrs, hF.length_eq.symm, List.Perm.refl nodes,
      fun _ => rfl, hprops nodes hF⟩
  · have hF := h2 ht
    have hbp : (completion.filterMap fun i => nodes[i]?).Perm nodes := by
      have hp := hperm.filterMap (fun i => nodes[i]?)
      rw [range_filterMap_getElem] at hp
      exact hp
    refine ⟨rs, completion.filterMap fun i => nodes[i]?, hrs, ?_, hbp,
      fun h => absurd h ht, hprops _ hF⟩
    rw [← hF.length_eq, hbp.length_eq]

/-- Witness for C6: three candidates of which exactly the second one's
statements raise; the run returns one `failed` outcome with the error
message verbatim and two `success` outcomes, and nothing escapes. -/
theorem executor_isolation_witness :
    execCopier.dry_run = false ∧ failOn2Env.connect = .ok () ∧
    ([0, 1, 2] : List Nat).Perm (List.range threeNodes.length) ∧
    (∃ rs base,
      execCopier.copy_tables failOn2Env [0, 1, 2] threeNodes = .ok rs ∧
      rs.length = threeNodes.length ∧ base.Perm threeNodes ∧
      (execCopier.threads = 1 → base = threeNodes) ∧
      List.Forall₂ (fun node out =>
        (out.status = "failed".data ↔
          ∃ m, execCopier.runStatements failOn2Env
            (execCopier.build_copy_query node.database
              node.schema (node.alias_.getD node.name)
              (node.alias_.getD node.name)) = .error m) ∧
        (∀ m, execCopier.runStatements failOn2Env
            (execCopier.build_copy_query node.database
              node.schema (node.alias_.getD node.name)
              (node.alias_.getD node.name)) = .error m →
          out.error = some m) ∧
        (out.status ≠ "failed".data → out.status = "success".data))
        base rs) ∧
    ((((execCopier.copy_tables failOn2Env [0, 1, 2] threeNodes).toOption.getD
      []).filter fun o => o.status = "failed".data).length = 1 ∧
    (((execCopier.copy_tables failOn2Env [0, 1, 2] threeNodes).toOption.getD
      []).filter fun o => ¬ o.status = "failed".data).length = 2 ∧
    ((((execCopier.copy_tables failOn2Env [0, 1, 2] threeNodes).toOption.getD
      []).filter fun o => o.status = "failed".data).map fun o => o.error) =
      [some "boom".data]) := by
  refine ⟨rfl, rfl, by decide,
    executor_isolation execCopier failOn2Env [0, 1, 2] threeNodes rfl rfl
      (by decide),
    by decide, by decide, by decide⟩

/-! ### C7 -/

/-- C7 counterexample: when acquiring the connection fails during the
schema-ensure step, the exception escapes `_create_schema_if_not_exists`
(whose `try` only wraps the statement executions) and aborts the whole run
instead of being swallowed. -/
theorem schema_ensure_counterexample :
    execCopier.dry_run = false ∧
    execCopier.create_schema_if_not_exists connectFailEnv
      (some "ci".data) = .error "no connection".data ∧
    execCopier.copy_tables connectFailEnv [] [node1] =
      .error "no connection".data := by
  refine ⟨rfl, by decide, by decide⟩

/-- C7 amended: any failure raised while executing the schema-creation
statements (with the connection acquired) is swallowed, never surfaces as
the candidate's failure and the candidate proceeds to statement execution —
its outcome is `failed` only if its own statement run raises; however a
connection-acquisition failure during schema-ensure propagates. -/
theorem schema_ensure_amended (c : TableCopier) (env : DBEnv)
    (s : Option Str) (node : CopyNode) (hconn : env.connect = .ok ()) :
    c.create_schema_if_not_exists env s = .ok () ∧
    (c.dry_run = false →
      ∃ out, c.copy_single_table env node = .ok out ∧
        (out.status = "failed".data ↔
          ∃ m, c.runStatements env (c.build_copy_query node.database
            node.schema (node.alias_.getD node.name)
            (node.alias_.getD node.name)) = .error m)) := by
  refine ⟨create_schema_ok c env s hconn, fun hdry => ?_⟩
  obtain ⟨out, hout⟩ := copy_single_table_isOk c env node hconn
  exact ⟨out, hout,
    (copy_single_table_failure_props c env node out hdry hconn hout).1⟩

/-- Witness for C7: a database that rejects every `CREATE SCHEMA` statement
still yields a successful candidate copy. -/
theorem schema_ensure_amended_witness :
    schemaFailEnv.connect = .ok () ∧
    schemaFailEnv.execStmt (createSchemaStmt "postgresql".data "ci".data) =
      .error "denied".data ∧
    (execCopier.create_schema_if_not_exists schemaFailEnv
        (some "ci".data) = .ok () ∧
      (execCopier.dry_run = false →
        ∃ out, execCopier.copy_single_table schemaFailEnv node1 = .ok out ∧
          (out.status = "failed".data ↔
            ∃ m, execCopier.runStatements schemaFailEnv
              (execCopier.build_copy_query node1.database
                node1.schema (node1.alias_.getD node1.name)
                (node1.alias_.getD node1.name)) = .error m))) ∧
    ((execCopier.copy_single_table schemaFailEnv node1).toOption.map
      fun o => o.status) = some "success".data := by
  refine ⟨rfl, by decide, schema_ensure_amended execCopier schemaFailEnv
    (some "ci".data) node1 rfl, by decide⟩

/-! ### C8 -/

/-- C8: in every outcome the executor returns, the error field is non-`None`
exactly when the status is `failed`, and the preview-statement field is
non-`None` exactly when the status is `dry_run`. -/
theorem outcome_field_presence (c : TableCopier) (env : DBEnv)
    (node : CopyNode) (out : Outcome) (hconn : env.connect = .ok ())
    (h : c.copy_single_table env node = .ok out) :
    (out.error ≠ none ↔ out.status = "failed".data) ∧
    (out.query ≠ none ↔ out.status = "dry_run".data) := by
  cases hdry : c.dry_run with
  | true =>
    rw [copy_single_table_dry c hdry env node] at h
    injection h with h'
    subst h'
    refine ⟨⟨fun hc => absurd rfl hc, fun hst => absurd hst
      (show ¬ ("dry_run".data = "failed".data) by decide)⟩,
      ⟨fun _ => rfl, fun _ => by simp⟩⟩
  | false =>
    rw [copy_single_table_nondry c env node hdry hconn] at h
    revert h
    cases hrun : c.runStatements env (c.build_copy_query node.database
        node.schema (node.alias_.getD node.name)
        (node.alias_.getD node.name)) with
    | ok u =>
      cases u
      intro h
      injection h with h'
      subst h'
      exact ⟨⟨fun hc => absurd rfl hc, fun hst => absurd hst
        (show ¬ ("success".data = "failed".data) by decide)⟩,
        ⟨fun hc => absurd rfl hc, fun hst => absurd hst
          (show ¬ ("success".data = "dry_run".data) by decide)⟩⟩
    | error e =>
      intro h
      injection h with h'
      subst h'
      exact ⟨⟨fun _ => rfl, fun _ => by simp⟩,
        ⟨fun hc => absurd rfl hc, fun hst => absurd hst
          (show ¬ ("failed".data = "dry_run".data) by decide)⟩⟩

/-- Witness for C8 at a concrete dry-run outcome. -/
theorem outcome_field_presence_witness :
    coreCopier.copy_single_table okEnv node1 =
      .ok ((coreCopier.copy_single_table okEnv node1).toOption.getD
        default) ∧
    ((((coreCopier.copy_single_table okEnv node1).toOption.getD
        default).error ≠ none ↔
      ((coreCopier.copy_single_table okEnv node1).toOption.getD
        default).status = "failed".data) ∧
    (((coreCopier.copy_single_table okEnv node1).toOption.getD
        default).query ≠ none ↔
      ((coreCopier.copy_single_table okEnv node1).toOption.getD
        default).status = "dry_run".data)) := by
  refine ⟨by decide, ?_⟩
  exact outcome_field_presence coreCopier okEnv node1 _ rfl (by decide)

/-! ### C9 -/

theorem forall2_countP {α β : Type} {P : α → β → Prop} (p : α → Bool)
    (q : β → Bool) (hpq : ∀ a b, P a b → q b = p a) {l₁ : List α}
    {l₂ : List β} (h : List.Forall₂ P l₁ l₂) :
    l₂.countP q = l₁.countP p := by
  induction h with
  | nil => rfl
  | cons hab _ ih => rw [List.countP_cons, List.countP_cons, ih, hpq _ _ hab]

theorem countP_eq_one_of_nodup {α : Type} [DecidableEq α] {l : List α}
    (hn : l.Nodup) {u : α} (hu : u ∈ l) :
    l.countP (fun x => x = u) = 1 := by
  induction l with
  | nil => cases hu
  | cons x xs ih =>
    rw [List.countP_cons]
    rcases List.mem_cons.mp hu with heq | hmem
    · subst heq
      have hx : u ∉ xs := (List.nodup_cons.mp hn).1
      have h0 : xs.countP (fun y => y = u) = 0 := by
        rw [List.countP_eq_zero]
        intro a ha
        simp only [decide_eq_true_eq]
        intro hh
        exact hx (hh ▸ ha)
      simp [h0]
    · have h1 := ih (List.nodup_cons.mp hn).2 hmem
      have hxu : ¬ x = u := fun hh =>
        (List.nodup_cons.mp hn).1 (hh ▸ hmem)
      simp [h1, hxu]

/-- C9: with a live connection, `copy_tables` returns exactly one outcome
per input node, in the sequential path and in the thread-pool path (the
latter modelled by any completion order that is a permutation of the node
indices): the result has the input's length and, when the inputs' unique
ids are distinct, each input's unique id appears in exactly one outcome. -/
theorem one_outcome_per_node (c : TableCopier) (env : DBEnv)
    (completion : List Nat) (nodes : List CopyNode)
    (hconn : env.connect = .ok ())
    (hperm : completion.Perm (List.range nodes.length))
    (hnodup : (nodes.map fun n => n.unique_id).Nodup) :
    ∃ rs, c.copy_tables env completion nodes = .ok rs ∧
      rs.length = nodes.length ∧
      ∀ n ∈ nodes,
        (rs.filter fun o => o.unique_id = n.unique_id).length = 1 := by
  obtain ⟨rs, hrs, h1, h2⟩ := copy_tables_ok c env completion nodes hconn
  have hbase : ∃ base, List.Forall₂ (fun node out =>
      c.copy_single_table env node = .ok out) base rs ∧ base.Perm nodes := by
    by_cases ht : c.threads = 1
    · exact ⟨nodes, h1 ht, List.Perm.refl nodes⟩
    · refine ⟨completion.filterMap fun i => nodes[i]?, h2 ht, ?_⟩
      have hp := hperm.filterMap (fun i => nodes[i]?)
      rw [range_filterMap_getElem] at hp
      exact hp
  obtain ⟨base, hF, hbp⟩ := hbase
  refine ⟨rs, hrs, ?_, ?_⟩
  · rw [← hF.length_eq, hbp.length_eq]
  · intro n hn
    rw [← List.countP_eq_length_filter]
    have hstep : rs.countP (fun o => o.unique_id = n.unique_id) =
        base.countP (fun node => node.unique_id = n.unique_id) := by
      refine forall2_countP _ _ ?_ hF
      intro a b hab
      have huid := copy_single_table_uid c env a b hconn hab
      simp [huid]
    rw [hstep, hbp.countP_eq]
    have hmapc : nodes.countP (fun node => node.unique_id = n.unique_id) =
        (nodes.map fun node => node.unique_id).countP
          (fun x => x = n.unique_id) := by
      rw [List.countP_map]
      rfl
    rw [hmapc]
    exact countP_eq_one_of_nodup hnodup (List.mem_map_of_mem _ hn)

/-- Witness for C9 on the thread-pool path with a shuffled completion
order. -/
theorem one_outcome_per_node_witness :
    okEnv.connect = .ok () ∧
    ([2, 0, 1] : List Nat).Perm (List.range threeNodes.length) ∧
    (threeNodes.map fun n => n.unique_id).Nodup ∧
    (∃ rs, poolCopier.copy_tables okEnv [2, 0, 1] threeNodes = .ok rs ∧
      rs.length = threeNodes.length ∧
      ∀ n ∈ threeNodes,
        (rs.filter fun o => o.unique_id = n.unique_id).length = 1) := by
  refine ⟨rfl, by decide, by decide, ?_⟩
  exact one_outcome_per_node poolCopier okEnv [2, 0, 1] threeNodes rfl
    (by decide) (by decide)

end DbtCI
